import Mathlib

/-!
Verification development for the cinematic intro subsystem: the legacy JSON
geometry decoder (`LegacyJSONLoader`) and the loading/camera-sequencing engine
(`LoadingScene`).  Numeric values computed by the JavaScript code are embedded
as exact rationals (`ℚ`) where the code is pure arithmetic, and as reals (`ℝ`)
where the code uses transcendental functions (`Math.exp`, `Math.sin`).
The face-record decoder is embedded as the source's sequential cursor machine
over a flat numeric buffer; a `chunk` of entries handed to `processFace` is
exactly the run of entries the source consumes for one face record via `i++`.
-/

namespace LegacyJSONLoader

/-- A material group as pushed by the decoder: `start` and `count` are in
vertex units, exactly as the source stores them (`start: positions.length / 3`,
`count` incremented by 3 per emitted triangle). -/
structure MatGroup where
  start : ℕ
  count : ℕ
  materialIndex : ℕ
deriving DecidableEq

/-- The mutable decode state of `LegacyJSONLoader.parse`'s face-scanning loop.
Positions are `Option ℚ` because the source pushes `vertices[index*3]`, which
is `undefined` (here `none`) when the index is out of the vertex pool. -/
structure DecodeState where
  positions : List (Option ℚ)
  normalArray : List ℚ
  uvArray : List ℚ
  groups : List MatGroup
  currentMaterialIndex : ℕ
  currentGroupStart : ℕ
  currentGroupCount : ℕ
deriving DecidableEq

/-- The read-only vertex/normal/uv pools of the payload. -/
structure Pools where
  vertices : List ℚ
  normals : List ℚ
  uvs : List ℚ
deriving DecidableEq

/-- Number of vertex indices of a face record: 4 for a quad (`type & 1`), 3 otherwise. -/
def numVerts (type : ℕ) : ℕ := if type &&& 1 ≠ 0 then 4 else 3

/-- Entries consumed for the material index (`type & 2`). -/
def mLen (type : ℕ) : ℕ := if type &&& 2 ≠ 0 then 1 else 0

/-- Entries consumed for per-vertex UV indices (`type & 8`). -/
def uvLen (type : ℕ) : ℕ := if type &&& 8 ≠ 0 then numVerts type else 0

/-- Entries consumed (and skipped) for the face normal index (`type & 16`). -/
def fnLen (type : ℕ) : ℕ := if type &&& 16 ≠ 0 then 1 else 0

/-- Entries consumed for per-vertex normal indices (`type & 32`). -/
def vnLen (type : ℕ) : ℕ := if type &&& 32 ≠ 0 then numVerts type else 0

/-- Entries consumed (and skipped) for the face color (`type & 64`). -/
def fcLen (type : ℕ) : ℕ := if type &&& 64 ≠ 0 then 1 else 0

/-- Entries consumed (and skipped) for per-vertex colors (`type & 128`). -/
def vcLen (type : ℕ) : ℕ := if type &&& 128 ≠ 0 then numVerts type else 0

/-- Total number of entries the cursor consumes after the type byte of one
face record, dictated by the record's flag byte. -/
def entryCount (type : ℕ) : ℕ :=
  numVerts type + mLen type + uvLen type + fnLen type + vnLen type + fcLen type + vcLen type

/-- The source's `getVertex`: three consecutive pool entries, `none` standing
for the `undefined` produced by an out-of-range index. -/
def getVertex (pools : Pools) (index : ℕ) : List (Option ℚ) :=
  [pools.vertices.get? (index * 3), pools.vertices.get? (index * 3 + 1),
   pools.vertices.get? (index * 3 + 2)]

/-- UV lookup with the source's bounds check (`uvs.length > uvIndex * 2 + 1`),
defaulting to `(0, 0)`. -/
def lookupUv (pools : Pools) (uvIndex : ℕ) : ℚ × ℚ :=
  if uvIndex * 2 + 1 < pools.uvs.length then
    (pools.uvs.getD (uvIndex * 2) 0, pools.uvs.getD (uvIndex * 2 + 1) 0)
  else (0, 0)

/-- Normal lookup with the source's bounds check
(`normals.length > normalIndex * 3 + 2`), defaulting to `(0, 1, 0)`. -/
def lookupNormal (pools : Pools) (normalIndex : ℕ) : ℚ × ℚ × ℚ :=
  if normalIndex * 3 + 2 < pools.normals.length then
    (pools.normals.getD (normalIndex * 3) 0, pools.normals.getD (normalIndex * 3 + 1) 0,
     pools.normals.getD (normalIndex * 3 + 2) 0)
  else (0, 1, 0)

/-- The source's material-group transition tracking: on a material change,
flush the current group when non-empty and restart at the current vertex
write position (`positions.length / 3`). -/
def trackGroup (materialIndex : ℕ) (st : DecodeState) : DecodeState :=
  if materialIndex ≠ st.currentMaterialIndex then
    { st with
      groups :=
        if 0 < st.currentGroupCount then
          st.groups ++ [⟨st.currentGroupStart, st.currentGroupCount, st.currentMaterialIndex⟩]
        else st.groups,
      currentMaterialIndex := materialIndex,
      currentGroupStart := st.positions.length / 3,
      currentGroupCount := 0 }
  else st

/-- The source's `addTriangle(a, b, c)`: push 9 position entries, per-vertex
normals/uvs when present, and advance the open group by 3 vertices.  The
`getD` defaults are unreachable on well-formed records (the index lists have
the dictated lengths and `a b c < numVerts`). -/
def addTriangle (pools : Pools) (vertexIndices : List ℕ) (faceUvs : List (ℚ × ℚ))
    (faceNormals : List (ℚ × ℚ × ℚ)) (a b c : ℕ) (st : DecodeState) : DecodeState :=
  { st with
    positions := st.positions ++ getVertex pools (vertexIndices.getD a 0) ++
      getVertex pools (vertexIndices.getD b 0) ++ getVertex pools (vertexIndices.getD c 0),
    normalArray := st.normalArray ++
      (if 0 < faceNormals.length then
        [(faceNormals.getD a (0,1,0)).1, (faceNormals.getD a (0,1,0)).2.1,
         (faceNormals.getD a (0,1,0)).2.2,
         (faceNormals.getD b (0,1,0)).1, (faceNormals.getD b (0,1,0)).2.1,
         (faceNormals.getD b (0,1,0)).2.2,
         (faceNormals.getD c (0,1,0)).1, (faceNormals.getD c (0,1,0)).2.1,
         (faceNormals.getD c (0,1,0)).2.2]
       else []),
    uvArray := st.uvArray ++
      (if 0 < faceUvs.length then
        [(faceUvs.getD a (0,0)).1, (faceUvs.getD a (0,0)).2,
         (faceUvs.getD b (0,0)).1, (faceUvs.getD b (0,0)).2,
         (faceUvs.getD c (0,0)).1, (faceUvs.getD c (0,0)).2]
       else []),
    currentGroupCount := st.currentGroupCount + 3 }

/-- Processing of one face record whose post-type entries are `chunk`
(`chunk.length = entryCount type` when produced by the loop).  The take/drop
offsets are the cursor positions of the source's sequential `faces[i++]`
reads: vertex indices, then material index, then per-vertex UV indices, a
skipped face-normal index, per-vertex normal indices, and skipped color
entries; finally the fan (0,1,2) and, for quads, (0,2,3). -/
def processFace (pools : Pools) (type : ℕ) (chunk : List ℕ) (st : DecodeState) : DecodeState :=
  let nv := numVerts type
  let vertexIndices := chunk.take nv
  let materialIndex := if type &&& 2 ≠ 0 then (chunk.drop nv).headD 0 else 0
  let st1 := trackGroup materialIndex st
  let faceUvs :=
    if type &&& 8 ≠ 0 then ((chunk.drop (nv + mLen type)).take (uvLen type)).map (lookupUv pools)
    else []
  let faceNormals :=
    if type &&& 32 ≠ 0 then
      ((chunk.drop (nv + mLen type + uvLen type + fnLen type)).take (vnLen type)).map
        (lookupNormal pools)
    else []
  let st2 := addTriangle pools vertexIndices faceUvs faceNormals 0 1 2 st1
  if type &&& 1 ≠ 0 then addTriangle pools vertexIndices faceUvs faceNormals 0 2 3 st2 else st2

/-- The face-scanning loop (`while (i < faces.length)`), as a cursor machine.
`none` marks a malformed stream, where the source's cursor would run past the
end of the array and read `undefined`; every claim about the decoder is
stated for well-formed streams, on which the two behaviours agree. -/
def parseLoop (pools : Pools) : List ℕ → DecodeState → Option DecodeState
  | [], st => some st
  | type :: rest, st =>
    if entryCount type ≤ rest.length then
      parseLoop pools (rest.drop (entryCount type))
        (processFace pools type (rest.take (entryCount type)) st)
    else none
termination_by fs _ => fs.length
decreasing_by simp; omega

/-- The final-group flush after the scan ends. -/
def finishGroups (st : DecodeState) : List MatGroup :=
  if 0 < st.currentGroupCount then
    st.groups ++ [⟨st.currentGroupStart, st.currentGroupCount, st.currentMaterialIndex⟩]
  else st.groups

/-- The decode state at loop entry. -/
def initDecodeState : DecodeState := ⟨[], [], [], [], 0, 0, 0⟩

/-- The list of flag bytes of the records of a face stream (`none` when the
stream is malformed).  A stream is well-formed exactly when this succeeds. -/
def recordTypes : List ℕ → Option (List ℕ)
  | [] => some []
  | type :: rest =>
    if entryCount type ≤ rest.length then
      (recordTypes (rest.drop (entryCount type))).map (fun ts => type :: ts)
    else none
termination_by fs => fs.length
decreasing_by simp; omega

/-- Triangles emitted for a list of record flag bytes: two per quad record,
one per non-quad record. -/
def sumTris (ts : List ℕ) : ℕ := (ts.map (fun t => if t &&& 1 ≠ 0 then 2 else 1)).sum

/-- Total triangle count of a face stream (`none` when malformed). -/
def triangleTotal (fs : List ℕ) : Option ℕ := (recordTypes fs).map sumTris

/-- `contigFrom n gs`: the groups `gs` cover, in order, a gap-free
non-overlapping run of vertex ranges starting at `n`, each non-empty. -/
def contigFrom : ℕ → List MatGroup → Prop
  | _, [] => True
  | n, g :: gs => g.start = n ∧ 0 < g.count ∧ contigFrom (n + g.count) gs

instance (n : ℕ) (gs : List MatGroup) : Decidable (contigFrom n gs) := by
  induction gs generalizing n with
  | nil => exact .isTrue trivial
  | cons g gs ih => exact @instDecidableAnd _ _ _ (@instDecidableAnd _ _ _ (ih _))

/-- Sum of the `count` fields of a group list. -/
def sumCounts (gs : List MatGroup) : ℕ := (gs.map MatGroup.count).sum

/-- A raw material descriptor of the payload. -/
structure MatDescriptor where
  colorDiffuse : Option (ℚ × ℚ × ℚ)
  opacity : Option ℚ
deriving DecidableEq

/-- A resolved material (`MeshLambertMaterial` double-sided; defaults: white
color, opacity 1, opaque). -/
structure Material where
  color : ℚ × ℚ × ℚ
  opacity : ℚ
  transparent : Bool
deriving DecidableEq

/-- Resolution of one descriptor, per the source: copy `colorDiffuse` when
present; opacity < 1 forces `transparent` and sets the opacity. -/
def resolveMaterial (mat : MatDescriptor) : Material :=
  let m1 : Material := ⟨mat.colorDiffuse.getD (1, 1, 1), 1, false⟩
  match mat.opacity with
  | some o => if o < 1 then { m1 with opacity := o, transparent := true } else m1
  | none => m1

/-- The default neutral material (`color: 0x888888`) pushed when no
descriptor resolved. -/
def defaultMaterial : Material := ⟨(136/255, 136/255, 136/255), 1, false⟩

/-- The decoded payload; `none` fields are JavaScript's absent (`undefined`)
keys.  An empty array is present (truthy), unlike in the `!json.vertices`
check. -/
structure JSONInput where
  vertices : Option (List ℚ)
  faces : Option (List ℕ)
  normals : Option (List ℚ)
  uvs : Option (List ℚ)
  materials : Option (List MatDescriptor)

/-- The whole of `LegacyJSONLoader.parse`: on a structurally invalid payload
(missing `vertices` or `faces`) return an empty geometry and an empty
material list; otherwise run the face scan, flush the final group, resolve
the descriptors, and fall back to one default material when none resolved. -/
def parse (json : JSONInput) : Option DecodeState × List Material :=
  match json.vertices, json.faces with
  | some vs, some fs =>
    let pools : Pools := ⟨vs, json.normals.getD [], json.uvs.getD []⟩
    let geom := (parseLoop pools fs initDecodeState).map
      (fun st => { st with groups := finishGroups st })
    let mats := (json.materials.getD []).map resolveMaterial
    (geom, if mats.length = 0 then [defaultMaterial] else mats)
  | _, _ => (some initDecodeState, [])

/-- Clearing of the face-normal (16), face-color (64) and face-vertex-color
(128) flags of a flag byte. -/
def stripType (type : ℕ) : ℕ :=
  type - (if type &&& 16 ≠ 0 then 16 else 0) - (if type &&& 64 ≠ 0 then 64 else 0)
    - (if type &&& 128 ≠ 0 then 128 else 0)

/-- The post-type entries of one record with the face-normal, face-color and
face-vertex-color entries removed: vertex indices, material index, UV
indices and per-vertex normal indices are kept at their cursor positions. -/
def keptEntries (type : ℕ) (chunk : List ℕ) : List ℕ :=
  chunk.take (numVerts type) ++
  ((chunk.drop (numVerts type)).take (mLen type) ++
  (((chunk.drop (numVerts type + mLen type)).take (uvLen type)) ++
  ((chunk.drop (numVerts type + mLen type + uvLen type + fnLen type)).take (vnLen type))))

/-- Stream transformation clearing flags 16/64/128 of every record and
removing the corresponding entries (`none` on a malformed stream). -/
def stripStream : List ℕ → Option (List ℕ)
  | [] => some []
  | type :: rest =>
    if entryCount type ≤ rest.length then
      (stripStream (rest.drop (entryCount type))).map
        (fun tail => stripType type :: (keptEntries type (rest.take (entryCount type)) ++ tail))
    else none
termination_by fs => fs.length
decreasing_by simp; omega

/-- Number of distinct material indices referenced by a group list. -/
def distinctMatIndices (gs : List MatGroup) : ℕ :=
  (gs.map MatGroup.materialIndex).dedup.length

/-- Proof-layer normal form of `processFace` on a record split into its
vertex-index, material, UV-index and vertex-normal-index entry runs; the
skipped face-normal/color entries do not appear. -/
def faceCore (pools : Pools) (type : ℕ) (v mm uu nn : List ℕ) (st : DecodeState) : DecodeState :=
  let materialIndex := if type &&& 2 ≠ 0 then mm.headD 0 else 0
  let st1 := trackGroup materialIndex st
  let faceUvs := if type &&& 8 ≠ 0 then uu.map (lookupUv pools) else []
  let faceNormals := if type &&& 32 ≠ 0 then nn.map (lookupNormal pools) else []
  let st2 := addTriangle pools v faceUvs faceNormals 0 1 2 st1
  if type &&& 1 ≠ 0 then addTriangle pools v faceUvs faceNormals 0 2 3 st2 else st2

/-- The decode-loop invariant: the flushed groups tile [0, currentGroupStart)
gap-free, and the positions buffer holds exactly 3 coordinates for each of
the currentGroupStart + currentGroupCount vertices emitted so far. -/
def DecInv (st : DecodeState) : Prop :=
  contigFrom 0 st.groups ∧ sumCounts st.groups = st.currentGroupStart ∧
  st.positions.length = 3 * (st.currentGroupStart + st.currentGroupCount)

end LegacyJSONLoader

namespace LoadingScene

/-! ### Asset pipeline (`loadAssets` / `loadDependentAssets` / `assetLoaded`)

Single-threaded cooperative scheduling: each settlement handler runs
atomically.  A settlement event is admissible only when its load has been
started and has not settled yet; the five dependent loads are started inside
the primary load's success and error handlers, right after `assetLoaded()`. -/

/-- The pipeline-relevant state of a `LoadingScene`: settlement bookkeeping,
the `loadedAssets` counter, and whether `startCameraTransition` has run
(`transitionActive`) and how many times it has been invoked
(`completionsFired`). -/
structure PipeState where
  primSettled : Bool
  depStarted : Bool
  depSettled : List Bool
  loadedAssets : ℕ
  transitionActive : Bool
  completionsFired : ℕ
deriving DecidableEq

/-- The fixed total of `this.totalAssets = 6`. -/
def totalAssets : ℕ := 6

/-- The source's `assetLoaded()`: increment the counter, then invoke
`startCameraTransition` when the counter has reached the total and the
transition is not yet active. -/
def assetLoaded (s : PipeState) : PipeState :=
  let l := s.loadedAssets + 1
  if totalAssets ≤ l ∧ s.transitionActive = false then
    { s with loadedAssets := l, transitionActive := true,
             completionsFired := s.completionsFired + 1 }
  else { s with loadedAssets := l }

/-- The primary (building) load's handler: both success and error paths call
`assetLoaded()` and then `loadDependentAssets`, which starts the five
dependent loads. -/
def settlePrimary (s : PipeState) : PipeState :=
  let s1 := assetLoaded s
  { s1 with primSettled := true, depStarted := true }

/-- A dependent load's handler (success or error): one `assetLoaded()` call. -/
def settleDep (i : Fin 5) (s : PipeState) : PipeState :=
  let s1 := assetLoaded s
  { s1 with depSettled := s1.depSettled.set i true }

/-- A settlement arriving from the network: the primary or dependent `i`. -/
inductive LoadEvent
  | prim
  | dep (i : Fin 5)
deriving DecidableEq

/-- Admissibility and effect of one settlement: a load settles at most once,
and a dependent load can settle only after it has been started. -/
def applyEvent (e : LoadEvent) (s : PipeState) : Option PipeState :=
  match e with
  | .prim => if s.primSettled = false then some (settlePrimary s) else none
  | .dep i =>
    if s.depStarted = true ∧ s.depSettled.getD i false = false then some (settleDep i s)
    else none

/-- Execution of a sequence of settlement events (`none` when some event is
inadmissible, i.e. the trace cannot occur). -/
def execEvents : List LoadEvent → PipeState → Option PipeState
  | [], s => some s
  | e :: es, s =>
    match applyEvent e s with
    | some s1 => execEvents es s1
    | none => none

/-- The state right after the constructor ran `loadAssets()`: the primary
load is in flight, nothing has settled, no dependent load started. -/
def initPipeState : PipeState := ⟨false, false, List.replicate 5 false, 0, false, 0⟩

/-! ### Camera sequencer (`skipTransition` / `updateCameraTransition`) -/

/-- The sequencer state observable by claims: the `cameraTransition.active`
flag, the published `progress`, and the number of `onComplete` invocations. -/
structure SeqState where
  active : Bool
  progress : ℚ
  fired : ℕ
deriving DecidableEq

/-- The source's `skipTransition()`: a no-op unless the transition is active;
otherwise deactivate, force progress to 1 and invoke `onComplete`. -/
def skipTransition (s : SeqState) : SeqState :=
  if s.active then { active := false, progress := 1, fired := s.fired + 1 } else s

/-- One `updateCameraTransition()` tick at raw progress
`rawProgress = elapsed / duration`: an early return when inactive; when the
raw progress has reached 1, clamp it, deactivate and invoke `onComplete`;
the camera-pose math does not touch these fields. -/
def tickTransition (rawProgress : ℚ) (s : SeqState) : SeqState :=
  if s.active then
    if 1 ≤ rawProgress then { active := false, progress := 1, fired := s.fired + 1 }
    else { s with progress := rawProgress }
  else s

/-- An interleaving element: a per-frame tick or a skip call. -/
inductive SeqOp
  | tick (rawProgress : ℚ)
  | skip
deriving DecidableEq

/-- Application of one interleaving element. -/
def seqStep : SeqOp → SeqState → SeqState
  | .tick rp, s => tickTransition rp s
  | .skip, s => skipTransition s

/-- Execution of an interleaving of ticks and skips. -/
def runSeq : List SeqOp → SeqState → SeqState
  | [], s => s
  | op :: ops, s => runSeq ops (seqStep op s)

/-! ### Easing (`variableSpeedEase`), exact rational arithmetic -/

/-- The source's `easeInQuad`. -/
def easeInQuad (t : ℚ) : ℚ := t * t

/-- The source's `easeOutQuad`. -/
def easeOutQuad (t : ℚ) : ℚ := t * (2 - t)

/-- The source's three-segment `variableSpeedEase`: ease-in below 0.2,
near-linear middle, ease-out from 0.8. -/
def variableSpeedEase (t : ℚ) : ℚ :=
  if t < 0.2 then easeInQuad (t / 0.2) * 0.15
  else if t < 0.8 then
    let middleT := (t - 0.2) / 0.6
    0.15 + middleT * 0.7
  else
    let endT := (t - 0.8) / 0.2
    0.85 + easeOutQuad endT * 0.15

/-! ### Damped interpolation (`lerp` / `damp`), over ℝ because of `Math.exp` -/

/-- The source's `lerp`. -/
noncomputable def lerp (a b t : ℝ) : ℝ := a + (b - a) * t

/-- The source's `damp`: exponential smoothing
`current + (target - current) * (1 - e^(-smoothing*dt))`. -/
noncomputable def damp (current target smoothing dt : ℝ) : ℝ :=
  lerp current target (1 - Real.exp (-(smoothing * dt)))

/-- Iterated damping toward a fixed target over a sequence of frame time
steps. -/
noncomputable def dampRun (smoothing target : ℝ) : List ℝ → ℝ → ℝ
  | [], current => current
  | dt :: rest, current => dampRun smoothing target rest (damp current target smoothing dt)

/-! ### Effect synchronizer (`updateVisualEffects`) -/

/-- The per-light constants fixed at `setupLighting` time (base intensity and
speed contain `Math.random()` values drawn once during construction). -/
structure LightData where
  baseIntensity : ℝ
  phase : ℝ
  speed : ℝ
  isSpotlight : Bool

/-- One dynamic light: its constants plus its mutable intensity and
y-position. -/
structure Light where
  data : LightData
  intensity : ℝ
  posY : ℝ

/-- The mutable visual state touched by `updateVisualEffects`. -/
structure EffectState where
  bloomIntensity : ℝ
  vignetteDarkness : ℝ
  caOffset : ℝ × ℝ
  lights : List Light
  dustPositions : List (ℝ × ℝ × ℝ)
  dustRotY : ℝ
  mistRotY : ℝ
  mistOpacity : ℝ
  background : ℝ × ℝ × ℝ
  fogDensity : ℝ
  exposure : ℝ

/-- The source's `updateVisualEffects(progress, deltaTime)`; `now` is the
`performance.now()` reading it makes (`time = now * 0.001`), i.e. its
wall-clock input.  Dust positions use the flat array index `i = 3 * j` of
the source's stride-3 loop. -/
noncomputable def updateVisualEffects (s : EffectState) (progress deltaTime now : ℝ) :
    EffectState :=
  let time := now * 0.001
  { bloomIntensity := 0.3 + progress * 0.8
    vignetteDarkness := 0.5 + progress * 0.3
    caOffset := (0.0005 + Real.sin (time * 2) * 0.0003, 0.0005 + Real.sin (time * 2) * 0.0003)
    lights := s.lights.map (fun l =>
      let pulse := Real.sin (time * l.data.speed + l.data.phase) * 0.5 + 0.5
      if l.data.isSpotlight then
        { l with intensity := l.data.baseIntensity * progress * pulse }
      else
        { l with intensity := l.data.baseIntensity * pulse * (0.3 + progress * 0.7),
                 posY := l.posY + Real.sin (time * l.data.speed * 2 + l.data.phase) * 0.1 })
    dustPositions := s.dustPositions.mapIdx (fun j p =>
      let i : ℝ := 3 * j
      let y := p.2.1 + Real.cos (time * 0.5 + i) * 0.01 + 0.005
      (p.1 + Real.sin (time + i) * 0.02, if 150 < y then 0 else y,
       p.2.2 + Real.cos (time + i) * 0.02))
    dustRotY := s.dustRotY + deltaTime * 0.01
    mistRotY := s.mistRotY - deltaTime * 0.02
    mistOpacity := 0.15 + progress * 0.15
    background := (0.04 + progress * 0.02, 0.04 + progress * 0.01, 0.08 - progress * 0.02)
    fogDensity := 0.006 + progress * 0.004
    exposure := 0.6 + progress * 0.6 }

/-- The effect-parameter bundle named by the spec: bloom intensity, vignette
darkness, chromatic-aberration offset, the light intensities, background
color, fog density and exposure. -/
noncomputable def effectParams (s : EffectState) :
    ℝ × ℝ × (ℝ × ℝ) × List ℝ × (ℝ × ℝ × ℝ) × ℝ × ℝ :=
  (s.bloomIntensity, s.vignetteDarkness, s.caOffset, s.lights.map Light.intensity,
   s.background, s.fogDensity, s.exposure)

/-- The single-fire invariant: the callback count is at most 1, and while the
transition is still active it is still 0. -/
def seqInv (s : SeqState) : Prop := s.fired ≤ 1 ∧ (s.active = true → s.fired = 0)

/-- Settlements recorded in a pipeline state. -/
def settledCount (s : PipeState) : ℕ :=
  (if s.primSettled then 1 else 0) + s.depSettled.count true

/-- The pipeline invariant: five dependent slots; the dependent loads are
started exactly when the primary has settled; no dependent settles before it
is started; the counter equals the number of settlements; the transition
activates, and the completion signal fires once, exactly when the counter
reaches 6. -/
def PipeInv (s : PipeState) : Prop :=
  s.depSettled.length = 5 ∧
  s.depStarted = s.primSettled ∧
  (s.primSettled = false → s.depSettled.count true = 0) ∧
  s.loadedAssets = settledCount s ∧
  s.transitionActive = decide (s.loadedAssets = 6) ∧
  s.completionsFired = (if s.loadedAssets = 6 then 1 else 0)

end LoadingScene

namespace LoadingScene

/-! ### Easing lemmas -/

lemma two_tenths : (0.2 : ℚ) = 1/5 := by norm_num

lemma eight_tenths : (0.8 : ℚ) = 4/5 := by norm_num

lemma vse_lo {t : ℚ} (h : t < 1/5) : variableSpeedEase t = 15/4 * (t * t) := by
  simp only [variableSpeedEase, easeInQuad, two_tenths]
  rw [if_pos h]; ring_nf

lemma vse_mid {t : ℚ} (h1 : ¬t < 1/5) (h2 : t < 4/5) :
    variableSpeedEase t = 3/20 + (t - 1/5) * (7/6) := by
  simp only [variableSpeedEase, two_tenths, eight_tenths]
  rw [if_neg h1, if_pos h2]; ring_nf

lemma vse_hi {t : ℚ} (h : ¬t < 4/5) :
    variableSpeedEase t = 17/20 + (5*t - 4) * (2 - (5*t - 4)) * (3/20) := by
  have h1 : ¬t < 1/5 := by intro hc; exact h (by linarith)
  simp only [variableSpeedEase, easeOutQuad, two_tenths, eight_tenths]
  rw [if_neg h1, if_neg h]; ring_nf

lemma vse_mono {x y : ℚ} (hx : 0 ≤ x) (hy : y ≤ 1) (hxy : x ≤ y) :
    variableSpeedEase x ≤ variableSpeedEase y := by
  by_cases hx2 : x < 1/5
  · by_cases hy2 : y < 1/5
    · rw [vse_lo hx2, vse_lo hy2]
      nlinarith [mul_self_le_mul_self hx hxy]
    · by_cases hy8 : y < 4/5
      · rw [vse_lo hx2, vse_mid hy2 hy8]
        push_neg at hy2
        nlinarith [mul_nonneg hx hx]
      · rw [vse_lo hx2, vse_hi hy8]
        push_neg at hy8
        nlinarith [mul_nonneg hx hx, mul_nonneg (by linarith : (0:ℚ) ≤ 5*y - 4)
          (by linarith : (0:ℚ) ≤ 2 - (5*y - 4))]
  · by_cases hx8 : x < 4/5
    · have hy2 : ¬y < 1/5 := fun hc => hx2 (by linarith)
      by_cases hy8 : y < 4/5
      · rw [vse_mid hx2 hx8, vse_mid hy2 hy8]
        linarith
      · rw [vse_mid hx2 hx8, vse_hi hy8]
        push_neg at hy8
        nlinarith [mul_nonneg (by linarith : (0:ℚ) ≤ 5*y - 4)
          (by linarith : (0:ℚ) ≤ 2 - (5*y - 4))]
    · have hy8 : ¬y < 4/5 := fun hc => hx8 (by linarith)
      rw [vse_hi hx8, vse_hi hy8]
      push_neg at hx8 hy8
      nlinarith [mul_nonneg (by linarith : (0:ℚ) ≤ y - x)
        (by linarith : (0:ℚ) ≤ 2 - (5*x - 4) - (5*y - 4))]

end LoadingScene

/-- Claim C3: the piecewise easing function `variableSpeedEase` satisfies
value(0) = 0, value(1) = 1, value(0.2) = 0.15, value(0.8) = 0.85, and is
monotonically non-decreasing on [0, 1]. -/
theorem claim_C3 (x y : ℚ) (hx : 0 ≤ x) (hy : y ≤ 1) (hxy : x ≤ y) :
    LoadingScene.variableSpeedEase 0 = 0 ∧
    LoadingScene.variableSpeedEase 1 = 1 ∧
    LoadingScene.variableSpeedEase 0.2 = 0.15 ∧
    LoadingScene.variableSpeedEase 0.8 = 0.85 ∧
    LoadingScene.variableSpeedEase x ≤ LoadingScene.variableSpeedEase y := by
  refine ⟨by norm_num [LoadingScene.variableSpeedEase, LoadingScene.easeInQuad],
    by norm_num [LoadingScene.variableSpeedEase, LoadingScene.easeOutQuad],
    by norm_num [LoadingScene.variableSpeedEase],
    by norm_num [LoadingScene.variableSpeedEase, LoadingScene.easeOutQuad],
    LoadingScene.vse_mono hx hy hxy⟩

/-- Witness for claim C3 at the concrete endpoints x = 0, y = 1. -/
theorem claim_C3_witness :
    LoadingScene.variableSpeedEase 0 = 0 ∧
    LoadingScene.variableSpeedEase 1 = 1 ∧
    LoadingScene.variableSpeedEase 0.2 = 0.15 ∧
    LoadingScene.variableSpeedEase 0.8 = 0.85 ∧
    LoadingScene.variableSpeedEase 0 ≤ LoadingScene.variableSpeedEase 1 :=
  claim_C3 0 1 (le_refl 0) (le_refl 1) zero_le_one

namespace LoadingScene

/-! ### Sequencer lemmas -/

lemma seqStep_inactive {op : SeqOp} {s : SeqState} (h : s.active = false) : seqStep op s = s := by
  cases op with
  | tick rp => simp [seqStep, tickTransition, h]
  | skip => simp [seqStep, skipTransition, h]

lemma runSeq_inactive {ops : List SeqOp} {s : SeqState} (h : s.active = false) :
    runSeq ops s = s := by
  induction ops with
  | nil => rfl
  | cons op ops ih => rw [runSeq, seqStep_inactive h, ih]

lemma seqStep_inv {op : SeqOp} {s : SeqState} (h : seqInv s) : seqInv (seqStep op s) := by
  obtain ⟨h1, h2⟩ := h
  cases hs : s.active with
  | false => rw [seqStep_inactive hs]; exact ⟨h1, h2⟩
  | true =>
    have hf := h2 hs
    cases op with
    | tick rp =>
      simp only [seqStep, tickTransition, hs, if_true]
      by_cases hrp : 1 ≤ rp
      · rw [if_pos hrp]; exact ⟨by simp [hf], by simp⟩
      · rw [if_neg hrp]; exact ⟨h1, fun _ => hf⟩
    | skip =>
      simp only [seqStep, skipTransition, hs, if_true]
      exact ⟨by simp [hf], by simp⟩

lemma runSeq_inv {ops : List SeqOp} {s : SeqState} (h : seqInv s) : seqInv (runSeq ops s) := by
  induction ops generalizing s with
  | nil => exact h
  | cons op ops ih => exact ih (seqStep_inv h)

end LoadingScene

/-- Claim C2: `skipTransition` while idle changes nothing; while active it
forces progress to 1, deactivates and fires the completion callback once; a
second skip is a no-op; and over any interleaving of ticks and skips starting
with no callback fired, the callback fires at most once and an inactive
sequencer never re-enters the active state. -/
theorem claim_C2 (s : LoadingScene.SeqState) (ops : List LoadingScene.SeqOp)
    (h0 : s.fired = 0) :
    (s.active = false → LoadingScene.skipTransition s = s) ∧
    (s.active = true →
      (LoadingScene.skipTransition s).progress = 1 ∧
      (LoadingScene.skipTransition s).active = false ∧
      (LoadingScene.skipTransition s).fired = s.fired + 1) ∧
    LoadingScene.skipTransition (LoadingScene.skipTransition s) =
      LoadingScene.skipTransition s ∧
    (LoadingScene.runSeq ops s).fired ≤ 1 ∧
    (s.active = false → (LoadingScene.runSeq ops s).active = false) := by
  refine ⟨fun h => by simp [LoadingScene.skipTransition, h],
    fun h => by simp [LoadingScene.skipTransition, h],
    ?_, ?_, fun h => by rw [LoadingScene.runSeq_inactive h]; exact h⟩
  · by_cases h : s.active
    · simp [LoadingScene.skipTransition, h]
    · simp [LoadingScene.skipTransition, h]
  · exact (LoadingScene.runSeq_inv ⟨by omega, fun _ => h0⟩).1

/-- Witness for claim C2: an active sequencer, a skip followed by a late tick. -/
theorem claim_C2_witness :
    ((⟨true, 0, 0⟩ : LoadingScene.SeqState).active = false →
      LoadingScene.skipTransition ⟨true, 0, 0⟩ = ⟨true, 0, 0⟩) ∧
    ((⟨true, 0, 0⟩ : LoadingScene.SeqState).active = true →
      (LoadingScene.skipTransition ⟨true, 0, 0⟩).progress = 1 ∧
      (LoadingScene.skipTransition ⟨true, 0, 0⟩).active = false ∧
      (LoadingScene.skipTransition ⟨true, 0, 0⟩).fired =
        (⟨true, 0, 0⟩ : LoadingScene.SeqState).fired + 1) ∧
    LoadingScene.skipTransition (LoadingScene.skipTransition ⟨true, 0, 0⟩) =
      LoadingScene.skipTransition ⟨true, 0, 0⟩ ∧
    (LoadingScene.runSeq [LoadingScene.SeqOp.skip, LoadingScene.SeqOp.tick 2]
      ⟨true, 0, 0⟩).fired ≤ 1 ∧
    ((⟨true, 0, 0⟩ : LoadingScene.SeqState).active = false →
      (LoadingScene.runSeq [LoadingScene.SeqOp.skip, LoadingScene.SeqOp.tick 2]
        ⟨true, 0, 0⟩).active = false) :=
  claim_C2 ⟨true, 0, 0⟩ [LoadingScene.SeqOp.skip, LoadingScene.SeqOp.tick 2] rfl

namespace LoadingScene

/-! ### Pipeline lemmas -/

lemma count_set_true : ∀ (l : List Bool) (i : ℕ), l.getD i false = false → i < l.length →
    (l.set i true).count true = l.count true + 1
  | [], i, _, hi => by simp at hi
  | b :: t, 0, h, _ => by
    simp only [List.getD_cons_zero] at h
    subst h
    simp [List.count_cons]
  | b :: t, i + 1, h, hi => by
    simp only [List.getD_cons_succ] at h
    have := count_set_true t i h (by simpa using hi)
    simp [List.count_cons, this]
    omega

lemma getD_set_ne (l : List Bool) (i j : ℕ) (hij : i ≠ j) :
    (l.set i true).getD j false = l.getD j false := by
  induction l generalizing i j with
  | nil => simp
  | cons b t ih =>
    cases i with
    | zero => cases j with
      | zero => exact absurd rfl hij
      | succ j => simp
    | succ i => cases j with
      | zero => simp
      | succ j => simpa using ih i j (by omega)

lemma replicate_getD (n j : ℕ) : (List.replicate n false).getD j false = false := by
  induction n generalizing j with
  | zero => simp
  | succ n ih => cases j <;> simp [ih]

lemma applyEvent_loaded {e : LoadEvent} {s s' : PipeState} (h : applyEvent e s = some s') :
    s'.loadedAssets = s.loadedAssets + 1 := by
  cases e with
  | prim =>
    rw [applyEvent] at h
    split_ifs at h
    cases h
    simp only [settlePrimary, assetLoaded]
    split_ifs <;> rfl
  | dep i =>
    rw [applyEvent] at h
    split_ifs at h
    cases h
    simp only [settleDep, assetLoaded]
    split_ifs <;> rfl

lemma applyEvent_inv {e : LoadEvent} {s s' : PipeState} (h : applyEvent e s = some s')
    (hinv : PipeInv s) : PipeInv s' := by
  obtain ⟨hlen, hstart, hns, hload, hact, hfire⟩ := hinv
  cases e with
  | prim =>
    rw [applyEvent] at h
    split_ifs at h with hg
    cases h
    have hc0 : s.depSettled.count true = 0 := hns hg
    have hl0 : s.loadedAssets = 0 := by
      rw [hload]; simp [settledCount, hg, hc0]
    have ha : assetLoaded s = { s with loadedAssets := s.loadedAssets + 1 } := by
      rw [assetLoaded, if_neg]
      intro hcond
      have h1 := hcond.1
      rw [hl0] at h1
      exact absurd h1 (by decide)
    have hsp : settlePrimary s =
        { s with loadedAssets := s.loadedAssets + 1, primSettled := true, depStarted := true } := by
      rw [settlePrimary, ha]
    rw [hsp]
    refine ⟨hlen, rfl, by simp, ?_, ?_, ?_⟩
    · simp [settledCount, hl0, hc0]
    · show s.transitionActive = decide (s.loadedAssets + 1 = 6)
      rw [hact, hl0]
      rfl
    · show s.completionsFired = if s.loadedAssets + 1 = 6 then 1 else 0
      rw [hfire, hl0]
      rfl
  | dep i =>
    rw [applyEvent] at h
    split_ifs at h with hg
    cases h
    obtain ⟨hds, hfree⟩ := hg
    have hps : s.primSettled = true := hstart ▸ hds
    have hcnt : (s.depSettled.set i true).count true = s.depSettled.count true + 1 :=
      count_set_true s.depSettled i hfree (by rw [hlen]; exact i.isLt)
    have hcle : s.depSettled.count true + 1 ≤ 5 := by
      calc s.depSettled.count true + 1 = (s.depSettled.set i true).count true := hcnt.symm
      _ ≤ (s.depSettled.set i true).length := List.count_le_length _ _
      _ = 5 := by rw [List.length_set, hlen]
    have hlv : s.loadedAssets = 1 + s.depSettled.count true := by
      rw [hload]; simp [settledCount, hps]
    have hl6 : s.loadedAssets ≠ 6 := by omega
    have hactf : s.transitionActive = false := by rw [hact]; simp [hl6]
    have hfire0 : s.completionsFired = 0 := by rw [hfire]; simp [hl6]
    by_cases hfull : s.depSettled.count true = 4
    · have ha : assetLoaded s =
          { s with loadedAssets := s.loadedAssets + 1, transitionActive := true, completionsFired := s.completionsFired + 1 } := by
        rw [assetLoaded, if_pos]
        exact ⟨by rw [hlv, hfull]; decide, hactf⟩
      have hsd : settleDep i s =
          { s with loadedAssets := s.loadedAssets + 1, transitionActive := true, completionsFired := s.completionsFired + 1, depSettled := s.depSettled.set i true } := by
        rw [settleDep, ha]
      rw [hsd]
      refine ⟨by simpa using hlen, by simpa using hstart, ?_, ?_, ?_, ?_⟩
      · intro hfalse
        rw [show ({ s with loadedAssets := s.loadedAssets + 1, transitionActive := true, completionsFired := s.completionsFired + 1, depSettled := s.depSettled.set i true } : PipeState).primSettled = s.primSettled from rfl, hps] at hfalse
        cases hfalse
      · show s.loadedAssets + 1 = settledCount _
        simp [settledCount, hps, hcnt]
        rw [hlv]
        omega
      · show true = decide (s.loadedAssets + 1 = 6)
        rw [hlv, hfull]
        rfl
      · show s.completionsFired + 1 = if s.loadedAssets + 1 = 6 then 1 else 0
        rw [hfire0, hlv, hfull]
        rfl
    · have ha : assetLoaded s = { s with loadedAssets := s.loadedAssets + 1 } := by
        rw [assetLoaded, if_neg]
        intro hcond
        have h1 := hcond.1
        rw [hlv, totalAssets] at h1
        omega
      have hsd : settleDep i s =
          { s with loadedAssets := s.loadedAssets + 1, depSettled := s.depSettled.set i true } := by
        rw [settleDep, ha]
      rw [hsd]
      have hne6 : s.loadedAssets + 1 ≠ 6 := by omega
      refine ⟨by simpa using hlen, by simpa using hstart, ?_, ?_, ?_, ?_⟩
      · intro hfalse
        rw [show ({ s with loadedAssets := s.loadedAssets + 1, depSettled := s.depSettled.set i true } : PipeState).primSettled = s.primSettled from rfl, hps] at hfalse
        cases hfalse
      · show s.loadedAssets + 1 = settledCount _
        simp [settledCount, hps, hcnt]
        rw [hlv]
        omega
      · show s.transitionActive = decide (s.loadedAssets + 1 = 6)
        rw [hactf]
        simp [hne6]
      · show s.completionsFired = if s.loadedAssets + 1 = 6 then 1 else 0
        rw [hfire0]
        simp [hne6]

lemma execEvents_inv : ∀ (evs : List LoadEvent) (s s' : PipeState),
    execEvents evs s = some s' → PipeInv s → PipeInv s'
  | [], s, s', h, hinv => by
    rw [execEvents] at h
    cases h
    exact hinv
  | e :: es, s, s', h, hinv => by
    rw [execEvents] at h
    cases ha : applyEvent e s with
    | none => rw [ha] at h; cases h
    | some s1 =>
      rw [ha] at h
      exact execEvents_inv es s1 s' h (applyEvent_inv ha hinv)

lemma initPipeState_inv : PipeInv initPipeState := by
  refine ⟨rfl, rfl, fun _ => rfl, rfl, rfl, rfl⟩

lemma settleDep_depStarted (i : Fin 5) (s : PipeState) :
    (settleDep i s).depStarted = s.depStarted := by
  rw [settleDep, assetLoaded]
  split_ifs <;> rfl

lemma settleDep_depSettled (i : Fin 5) (s : PipeState) :
    (settleDep i s).depSettled = s.depSettled.set i true := by
  rw [settleDep, assetLoaded]
  split_ifs <;> rfl

lemma settleDep_length (i : Fin 5) (s : PipeState) :
    (settleDep i s).depSettled.length = s.depSettled.length := by
  rw [settleDep_depSettled, List.length_set]

/-- Any duplicate-free batch of not-yet-settled dependent loads can settle in
any order once the dependent loads have been started. -/
lemma depRun_isSome : ∀ (l : List (Fin 5)) (s : PipeState), s.depStarted = true →
    l.Nodup → (∀ i ∈ l, s.depSettled.getD i false = false) →
    (execEvents (l.map LoadEvent.dep) s).isSome = true
  | [], s, _, _, _ => rfl
  | i :: l, s, hds, hnd, hfree => by
    have hadm : applyEvent (LoadEvent.dep i) s = some (settleDep i s) := by
      rw [applyEvent, if_pos ⟨hds, hfree i (List.mem_cons_self i l)⟩]
    rw [List.map_cons, execEvents, hadm]
    refine depRun_isSome l (settleDep i s) (by rw [settleDep_depStarted]; exact hds)
      (List.Nodup.of_cons hnd) ?_
    intro j hj
    have hij : (i : ℕ) ≠ (j : ℕ) := by
      intro hc
      exact (List.nodup_cons.mp hnd).1 (by rwa [show i = j from Fin.ext hc])
    rw [settleDep_depSettled, getD_set_ne _ _ _ hij]
    exact hfree j (List.mem_cons_of_mem i hj)

end LoadingScene

/-- Claim C1: every settlement (success or failure) increments the loaded
counter exactly once; in any admissible order of the 6 settlements, once all
have settled the counter is 6 and the completion signal
(`startCameraTransition`) has fired exactly once, and it never fires twice. -/
theorem claim_C1 (evs : List LoadingScene.LoadEvent) (s : LoadingScene.PipeState)
    (h : LoadingScene.execEvents evs LoadingScene.initPipeState = some s) :
    (∀ (e : LoadingScene.LoadEvent) (s₁ s₂ : LoadingScene.PipeState),
      LoadingScene.applyEvent e s₁ = some s₂ → s₂.loadedAssets = s₁.loadedAssets + 1) ∧
    (s.primSettled = true ∧ s.depSettled.count true = 5 →
      s.loadedAssets = 6 ∧ s.completionsFired = 1) ∧
    s.completionsFired ≤ 1 := by
  have hinv := LoadingScene.execEvents_inv evs _ s h LoadingScene.initPipeState_inv
  obtain ⟨_, _, _, hload, _, hfire⟩ := hinv
  refine ⟨fun e s₁ s₂ he => LoadingScene.applyEvent_loaded he, ?_, ?_⟩
  · rintro ⟨hp, hc⟩
    have h6 : s.loadedAssets = 6 := by
      rw [hload]; simp [LoadingScene.settledCount, hp, hc]
    exact ⟨h6, by rw [hfire, if_pos h6]⟩
  · rw [hfire]
    split_ifs <;> omega

/-- Witness for claim C1: the primary settles first, then the five dependents
in order; the run ends with `loadedAssets = 6` and one completion. -/
theorem claim_C1_witness :
    LoadingScene.execEvents
      [LoadingScene.LoadEvent.prim, LoadingScene.LoadEvent.dep 0,
       LoadingScene.LoadEvent.dep 1, LoadingScene.LoadEvent.dep 2,
       LoadingScene.LoadEvent.dep 3, LoadingScene.LoadEvent.dep 4]
      LoadingScene.initPipeState =
      some (⟨true, true, [true, true, true, true, true], 6, true, 1⟩ :
        LoadingScene.PipeState) ∧
    ((⟨true, true, [true, true, true, true, true], 6, true, 1⟩ :
        LoadingScene.PipeState).primSettled = true ∧
      (⟨true, true, [true, true, true, true, true], 6, true, 1⟩ :
        LoadingScene.PipeState).depSettled.count true = 5 →
      (⟨true, true, [true, true, true, true, true], 6, true, 1⟩ :
        LoadingScene.PipeState).loadedAssets = 6 ∧
      (⟨true, true, [true, true, true, true, true], 6, true, 1⟩ :
        LoadingScene.PipeState).completionsFired = 1) :=
  ⟨by decide,
   (claim_C1 [LoadingScene.LoadEvent.prim, LoadingScene.LoadEvent.dep 0,
      LoadingScene.LoadEvent.dep 1, LoadingScene.LoadEvent.dep 2,
      LoadingScene.LoadEvent.dep 3, LoadingScene.LoadEvent.dep 4]
      ⟨true, true, [true, true, true, true, true], 6, true, 1⟩ (by decide)).2.1⟩

/-- Claim C7: the dependent loads are started exactly when the primary load
has settled (they begin only from inside the primary's handlers, so any
admissible trace containing a dependent settlement starts with the primary
settlement), and after the primary has settled the five dependent
settlements may arrive in any order. -/
theorem claim_C7 (evs : List LoadingScene.LoadEvent) (s : LoadingScene.PipeState)
    (h : LoadingScene.execEvents evs LoadingScene.initPipeState = some s) :
    s.depStarted = s.primSettled ∧
    (∀ i : Fin 5, LoadingScene.LoadEvent.dep i ∈ evs →
      ∃ rest, evs = LoadingScene.LoadEvent.prim :: rest ∧
        LoadingScene.LoadEvent.dep i ∈ rest) ∧
    (∀ l : List (Fin 5), l.Perm (List.finRange 5) →
      (LoadingScene.execEvents (LoadingScene.LoadEvent.prim :: l.map LoadingScene.LoadEvent.dep)
        LoadingScene.initPipeState).isSome = true) := by
  refine ⟨(LoadingScene.execEvents_inv evs _ s h LoadingScene.initPipeState_inv).2.1, ?_, ?_⟩
  · intro i hi
    match evs, hi with
    | e :: rest, hi =>
      cases e with
      | prim =>
        refine ⟨rest, rfl, ?_⟩
        cases List.mem_cons.mp hi with
        | inl hc => cases hc
        | inr hr => exact hr
      | dep j =>
        rw [LoadingScene.execEvents] at h
        have : LoadingScene.applyEvent (LoadingScene.LoadEvent.dep j)
            LoadingScene.initPipeState = none := by
          rw [LoadingScene.applyEvent, if_neg]
          intro hc
          exact absurd hc.1 (by decide)
        rw [this] at h
        cases h
  · intro l hperm
    have hstep : LoadingScene.applyEvent LoadingScene.LoadEvent.prim LoadingScene.initPipeState =
        some (LoadingScene.settlePrimary LoadingScene.initPipeState) := by decide
    rw [LoadingScene.execEvents, hstep]
    refine LoadingScene.depRun_isSome l _ (by decide)
      (hperm.nodup_iff.mpr (List.nodup_finRange 5)) ?_
    intro j _
    have : (LoadingScene.settlePrimary LoadingScene.initPipeState).depSettled =
        List.replicate 5 false := by decide
    rw [this, LoadingScene.replicate_getD]

/-- Witness for claim C7: the trace primary-then-dependent-0 and the reversed
dependent order. -/
theorem claim_C7_witness :
    ((⟨true, true, [true, false, false, false, false], 2, false, 0⟩ :
        LoadingScene.PipeState).depStarted =
      (⟨true, true, [true, false, false, false, false], 2, false, 0⟩ :
        LoadingScene.PipeState).primSettled) ∧
    (LoadingScene.execEvents
      (LoadingScene.LoadEvent.prim ::
        [4, 3, 2, 1, 0].map LoadingScene.LoadEvent.dep)
      LoadingScene.initPipeState).isSome = true :=
  ⟨(claim_C7 [LoadingScene.LoadEvent.prim, LoadingScene.LoadEvent.dep 0]
      ⟨true, true, [true, false, false, false, false], 2, false, 0⟩ (by decide)).1,
   (claim_C7 [] LoadingScene.initPipeState rfl).2.2 [4, 3, 2, 1, 0] (by decide)⟩

namespace LoadingScene

/-! ### Damping lemmas -/

lemma damp_residual (c tgt k dt : ℝ) :
    tgt - damp c tgt k dt = (tgt - c) * Real.exp (-(k * dt)) := by
  unfold damp lerp
  ring

/-- Closed form of the iterated damp: the residual decays by the exponential
of the accumulated time. -/
lemma dampRun_residual (k tgt : ℝ) : ∀ (dts : List ℝ) (c : ℝ),
    tgt - dampRun k tgt dts c = (tgt - c) * Real.exp (-(k * dts.sum))
  | [], c => by simp [dampRun]
  | dt :: rest, c => by
    rw [dampRun, dampRun_residual k tgt rest (damp c tgt k dt), List.sum_cons]
    have h := damp_residual c tgt k dt
    calc (tgt - damp c tgt k dt) * Real.exp (-(k * rest.sum))
        = (tgt - c) * (Real.exp (-(k * dt)) * Real.exp (-(k * rest.sum))) := by rw [h]; ring
      _ = (tgt - c) * Real.exp (-(k * dt) + -(k * rest.sum)) := by rw [Real.exp_add]
      _ = (tgt - c) * Real.exp (-(k * (dt + rest.sum))) := by ring_nf

end LoadingScene

/-- Claim C6: for every smoothing constant k > 0, iterating
`damp(current, 10, k, dt)` from 0 over any finite sequence of non-negative
time steps stays within [0, 10] (never overshoots), and converges to 10 as
the accumulated time grows: for every ε > 0 there is an accumulated-time
threshold beyond which the value is within ε of 10. -/
theorem claim_C6 (k : ℝ) (hk : 0 < k) :
    (∀ dts : List ℝ, (∀ d ∈ dts, 0 ≤ d) →
      0 ≤ LoadingScene.dampRun k 10 dts 0 ∧ LoadingScene.dampRun k 10 dts 0 ≤ 10) ∧
    (∀ ε : ℝ, 0 < ε → ∃ S : ℝ, ∀ dts : List ℝ, (∀ d ∈ dts, 0 ≤ d) → S ≤ dts.sum →
      10 - ε < LoadingScene.dampRun k 10 dts 0) := by
  constructor
  · intro dts hnn
    have hres := LoadingScene.dampRun_residual k 10 dts 0
    have hsum : 0 ≤ dts.sum := List.sum_nonneg hnn
    have hexp_pos : 0 < Real.exp (-(k * dts.sum)) := Real.exp_pos _
    have hexp_le : Real.exp (-(k * dts.sum)) ≤ 1 := by
      rw [Real.exp_le_one_iff]
      nlinarith
    constructor
    · nlinarith [hres]
    · nlinarith [hres]
  · intro ε hε
    refine ⟨(1 - Real.log (ε / 10)) / k, ?_⟩
    intro dts hnn hS
    have hres := LoadingScene.dampRun_residual k 10 dts 0
    have hexp_mono : Real.exp (-(k * dts.sum)) ≤ Real.exp (-(k * ((1 - Real.log (ε / 10)) / k))) := by
      rw [Real.exp_le_exp]
      have : k * ((1 - Real.log (ε / 10)) / k) ≤ k * dts.sum :=
        mul_le_mul_of_nonneg_left hS (le_of_lt hk)
      linarith
    have hkS : k * ((1 - Real.log (ε / 10)) / k) = 1 - Real.log (ε / 10) := by
      field_simp
    have hlt : Real.exp (-(1 - Real.log (ε / 10))) < ε / 10 := by
      have h1 : Real.exp (-(1 - Real.log (ε / 10))) < Real.exp (Real.log (ε / 10)) := by
        rw [Real.exp_lt_exp]
        linarith
      rwa [Real.exp_log (by positivity)] at h1
    rw [hkS] at hexp_mono
    nlinarith [hres]

/-- Witness for claim C6 at the concrete smoothing constant k = 1. -/
theorem claim_C6_witness :
    (∀ dts : List ℝ, (∀ d ∈ dts, 0 ≤ d) →
      0 ≤ LoadingScene.dampRun 1 10 dts 0 ∧ LoadingScene.dampRun 1 10 dts 0 ≤ 10) ∧
    (∀ ε : ℝ, 0 < ε → ∃ S : ℝ, ∀ dts : List ℝ, (∀ d ∈ dts, 0 ≤ d) → S ≤ dts.sum →
      10 - ε < LoadingScene.dampRun 1 10 dts 0) :=
  claim_C6 1 one_pos

namespace LoadingScene

/-- The light intensities written by `updateVisualEffects` depend only on the
per-light constants, the progress and the wall clock. -/
lemma updateVisualEffects_intensities (s : EffectState) (progress deltaTime now : ℝ) :
    (updateVisualEffects s progress deltaTime now).lights.map Light.intensity =
      (s.lights.map Light.data).map (fun d =>
        if d.isSpotlight then
          d.baseIntensity * progress * (Real.sin (now * 0.001 * d.speed + d.phase) * 0.5 + 0.5)
        else
          d.baseIntensity * (Real.sin (now * 0.001 * d.speed + d.phase) * 0.5 + 0.5) *
            (0.3 + progress * 0.7)) := by
  simp only [updateVisualEffects, List.map_map]
  congr 1
  funext l
  by_cases hl : l.data.isSpotlight <;> simp [Function.comp, hl]

end LoadingScene

/-- Claim C8: the effect-synchronizing update is a pure function of
(progress, wall-clock time, delta time) and the prior effect state: the
emitted effect parameters (bloom, vignette, chromatic aberration, light
intensities, background color, fog density, exposure) agree for any two
states whose per-light constants agree — in particular for identical prior
states — so no hidden mutable state feeds these outputs. -/
theorem claim_C8 (progress deltaTime now : ℝ) (s₁ s₂ : LoadingScene.EffectState)
    (h : s₁.lights.map LoadingScene.Light.data = s₂.lights.map LoadingScene.Light.data) :
    LoadingScene.effectParams (LoadingScene.updateVisualEffects s₁ progress deltaTime now) =
      LoadingScene.effectParams (LoadingScene.updateVisualEffects s₂ progress deltaTime now) := by
  have k1 := LoadingScene.updateVisualEffects_intensities s₁ progress deltaTime now
  have k2 := LoadingScene.updateVisualEffects_intensities s₂ progress deltaTime now
  simp only [LoadingScene.effectParams]
  rw [k1, k2, h]
  rfl

namespace LegacyJSONLoader

/-! ### Decoder lemmas: group bookkeeping and position lengths -/

lemma sumCounts_append (gs : List MatGroup) (g : MatGroup) :
    sumCounts (gs ++ [g]) = sumCounts gs + g.count := by
  simp [sumCounts]

lemma sumCounts_cons (g : MatGroup) (gs : List MatGroup) :
    sumCounts (g :: gs) = g.count + sumCounts gs := by
  simp [sumCounts]

lemma contigFrom_append (g : MatGroup) : ∀ (gs : List MatGroup) (n : ℕ),
    contigFrom n gs → g.start = n + sumCounts gs → 0 < g.count →
    contigFrom n (gs ++ [g])
  | [], n, _, hs, hc => ⟨by simpa [sumCounts] using hs, hc, trivial⟩
  | g0 :: gs, n, ⟨h1, h2, h3⟩, hs, hc => by
    refine ⟨h1, h2, contigFrom_append g gs (n + g0.count) h3 ?_ hc⟩
    rw [hs, sumCounts_cons]
    omega

lemma trackGroup_positions (mi : ℕ) (st : DecodeState) :
    (trackGroup mi st).positions = st.positions := by
  rw [trackGroup]; split_ifs <;> rfl

lemma trackGroup_inv {mi : ℕ} {st : DecodeState} (h : DecInv st) : DecInv (trackGroup mi st) := by
  obtain ⟨h1, h2, h3⟩ := h
  rw [trackGroup]
  split_ifs with hne hc
  · refine ⟨?_, ?_, ?_⟩
    · dsimp only
      exact contigFrom_append _ st.groups 0 h1 (by dsimp only; omega) hc
    · dsimp only
      rw [sumCounts_append]
      dsimp only
      omega
    · dsimp only
      omega
  · refine ⟨?_, ?_, ?_⟩
    · dsimp only
      exact h1
    · dsimp only
      omega
    · dsimp only
      omega
  · exact ⟨h1, h2, h3⟩

lemma addTriangle_positions_length (pools : Pools) (vi : List ℕ) (fu : List (ℚ × ℚ))
    (fn : List (ℚ × ℚ × ℚ)) (a b c : ℕ) (st : DecodeState) :
    (addTriangle pools vi fu fn a b c st).positions.length = st.positions.length + 9 := by
  simp [addTriangle, getVertex]

lemma addTriangle_inv {pools : Pools} {vi : List ℕ} {fu : List (ℚ × ℚ)}
    {fn : List (ℚ × ℚ × ℚ)} {a b c : ℕ} {st : DecodeState} (h : DecInv st) :
    DecInv (addTriangle pools vi fu fn a b c st) := by
  obtain ⟨h1, h2, h3⟩ := h
  refine ⟨h1, h2, ?_⟩
  rw [addTriangle_positions_length]
  show st.positions.length + 9 = 3 * (st.currentGroupStart + (st.currentGroupCount + 3))
  omega

lemma processFace_inv (pools : Pools) (type : ℕ) (chunk : List ℕ) {st : DecodeState}
    (h : DecInv st) : DecInv (processFace pools type chunk st) := by
  simp only [processFace]
  split_ifs <;>
    first
      | exact addTriangle_inv (addTriangle_inv (trackGroup_inv h))
      | exact addTriangle_inv (trackGroup_inv h)

lemma processFace_positions_length (pools : Pools) (type : ℕ) (chunk : List ℕ)
    (st : DecodeState) :
    (processFace pools type chunk st).positions.length =
      st.positions.length + 9 * (if type &&& 1 ≠ 0 then 2 else 1) := by
  simp only [processFace]
  split_ifs <;>
    simp [addTriangle_positions_length, trackGroup_positions]

lemma initDecodeState_inv : DecInv initDecodeState := ⟨trivial, rfl, rfl⟩

lemma sumTris_cons (t : ℕ) (ts : List ℕ) :
    sumTris (t :: ts) = (if t &&& 1 ≠ 0 then 2 else 1) + sumTris ts := by
  simp [sumTris]

lemma parseLoop_some_inv (pools : Pools) : ∀ (fs : List ℕ), ∀ (st st' : DecodeState),
    parseLoop pools fs st = some st' → DecInv st → DecInv st' := by
  intro fs
  induction fs using recordTypes.induct with
  | case1 =>
    intro st st' hp hinv
    rw [parseLoop] at hp
    cases hp
    exact hinv
  | case2 t rest h ih =>
    intro st st' hp hinv
    rw [parseLoop, if_pos h] at hp
    exact ih _ _ hp (processFace_inv pools t _ hinv)
  | case3 t rest h =>
    intro st st' hp _
    rw [parseLoop, if_neg h] at hp
    cases hp

lemma parseLoop_positions_length (pools : Pools) : ∀ (fs : List ℕ),
    ∀ (st st' : DecodeState) (ts : List ℕ),
    parseLoop pools fs st = some st' → recordTypes fs = some ts →
    st'.positions.length = st.positions.length + 9 * sumTris ts := by
  intro fs
  induction fs using recordTypes.induct with
  | case1 =>
    intro st st' ts hp ht
    rw [parseLoop] at hp
    rw [recordTypes] at ht
    cases hp
    cases ht
    simp [sumTris]
  | case2 t rest h ih =>
    intro st st' ts hp ht
    rw [parseLoop, if_pos h] at hp
    rw [recordTypes, if_pos h] at ht
    cases hrec : recordTypes (rest.drop (entryCount t)) with
    | none => rw [hrec] at ht; cases ht
    | some ts0 =>
      rw [hrec] at ht
      simp at ht
      subst ht
      rw [ih _ _ ts0 hp hrec, processFace_positions_length, sumTris_cons]
      ring
  | case3 t rest h =>
    intro st st' ts hp _
    rw [parseLoop, if_neg h] at hp
    cases hp

/-- Positions emitted by a full well-formed scan from the empty state:
nine coordinates per triangle. -/
lemma parseLoop_total_length (pools : Pools) (fs : List ℕ) (st' : DecodeState) (t : ℕ)
    (h : parseLoop pools fs initDecodeState = some st') (ht : triangleTotal fs = some t) :
    st'.positions.length = 9 * t := by
  unfold triangleTotal at ht
  cases hrec : recordTypes fs with
  | none => rw [hrec] at ht; cases ht
  | some ts =>
    rw [hrec] at ht
    simp at ht
    subst ht
    have := parseLoop_positions_length pools fs _ st' ts h hrec
    simpa [initDecodeState] using this

/-- Unfolding of the geometry component of `parse` on a valid payload. -/
lemma parse_geom {json : JSONInput} {vs : List ℚ} {fs : List ℕ}
    (hv : json.vertices = some vs) (hf : json.faces = some fs) {st' : DecodeState}
    (h : (parse json).1 = some st') :
    ∃ st0, parseLoop ⟨vs, json.normals.getD [], json.uvs.getD []⟩ fs initDecodeState = some st0 ∧
      st' = { st0 with groups := finishGroups st0 } := by
  unfold parse at h
  rw [hv, hf] at h
  dsimp only at h
  cases hp : parseLoop ⟨vs, json.normals.getD [], json.uvs.getD []⟩ fs initDecodeState with
  | none => rw [hp] at h; cases h
  | some st0 =>
    rw [hp] at h
    simp at h
    exact ⟨st0, rfl, h.symm⟩

/-- Unfolding of the material component of `parse` on a valid payload. -/
lemma parse_mats {json : JSONInput} {vs : List ℚ} {fs : List ℕ}
    (hv : json.vertices = some vs) (hf : json.faces = some fs) :
    (parse json).2 =
      if ((json.materials.getD []).map resolveMaterial).length = 0 then [defaultMaterial]
      else (json.materials.getD []).map resolveMaterial := by
  unfold parse
  rw [hv, hf]

/-- Unfolding of `parse` on a structurally invalid payload. -/
lemma parse_invalid {json : JSONInput} (h : json.vertices = none ∨ json.faces = none) :
    parse json = (some initDecodeState, []) := by
  unfold parse
  rcases h with h | h
  · rw [h]
  · rw [h]
    cases json.vertices <;> rfl

end LegacyJSONLoader

/-- Claim C5 (decoder triangle emission): for every well-formed face stream,
the decoder emits exactly one triangle per non-quad record and exactly two
per quad record (`sumTris` counts 2 for a record with the quad bit set and 1
otherwise, and `triangleTotal` sums it over the stream), and the decoded
position array has length 9 × (total triangle count). -/
theorem claim_C5 (json : LegacyJSONLoader.JSONInput) (vs : List ℚ) (fs : List ℕ)
    (hv : json.vertices = some vs) (hf : json.faces = some fs)
    (st' : LegacyJSONLoader.DecodeState) (t : ℕ)
    (h : (LegacyJSONLoader.parse json).1 = some st')
    (ht : LegacyJSONLoader.triangleTotal fs = some t) :
    st'.positions.length = 9 * t := by
  obtain ⟨st0, hp, hst⟩ := LegacyJSONLoader.parse_geom hv hf h
  have := LegacyJSONLoader.parseLoop_total_length _ fs st0 t hp ht
  rw [hst]
  exact this

/-- Claim C4 (amended): for every well-formed face stream the groups produced
by the decoder are ordered, contiguous and non-overlapping (each group starts
where the previous one ends, starting at 0, with positive count), and the sum
of their counts equals 3 × the total triangle count — the counts are in
vertex units (3 per triangle), not triangles, so the sum is thrice the
triangle count rather than equal to it. -/
theorem claim_C4 (json : LegacyJSONLoader.JSONInput) (vs : List ℚ) (fs : List ℕ)
    (hv : json.vertices = some vs) (hf : json.faces = some fs)
    (st' : LegacyJSONLoader.DecodeState) (t : ℕ)
    (h : (LegacyJSONLoader.parse json).1 = some st')
    (ht : LegacyJSONLoader.triangleTotal fs = some t) :
    LegacyJSONLoader.contigFrom 0 st'.groups ∧
    LegacyJSONLoader.sumCounts st'.groups = 3 * t := by
  obtain ⟨st0, hp, hst⟩ := LegacyJSONLoader.parse_geom hv hf h
  obtain ⟨h1, h2, h3⟩ :=
    LegacyJSONLoader.parseLoop_some_inv _ fs _ st0 hp LegacyJSONLoader.initDecodeState_inv
  have hlen : st0.positions.length = 9 * t :=
    LegacyJSONLoader.parseLoop_total_length _ fs st0 t hp ht
  have hgr : st'.groups = LegacyJSONLoader.finishGroups st0 := by rw [hst]
  rw [hgr, LegacyJSONLoader.finishGroups]
  split_ifs with hc
  · constructor
    · exact LegacyJSONLoader.contigFrom_append _ _ _ h1 (by dsimp only; omega) hc
    · rw [LegacyJSONLoader.sumCounts_append]
      dsimp only
      omega
  · exact ⟨h1, by omega⟩

set_option maxHeartbeats 1000000 in
/-- Witness for claim C5: one quad record (flag byte 1) over an empty vertex
pool yields two triangles and 18 position entries. -/
theorem claim_C5_witness :
    ((⟨List.replicate 18 none, [], [], [⟨0, 6, 0⟩], 0, 0, 6⟩ :
      LegacyJSONLoader.DecodeState)).positions.length = 9 * 2 :=
  claim_C5 ⟨some [], some [1, 0, 1, 2, 3], none, none, none⟩ [] [1, 0, 1, 2, 3] rfl rfl
    ⟨List.replicate 18 none, [], [], [⟨0, 6, 0⟩], 0, 0, 6⟩ 2
    (by norm_num +decide [LegacyJSONLoader.parse, LegacyJSONLoader.parseLoop,
      LegacyJSONLoader.processFace, LegacyJSONLoader.entryCount, LegacyJSONLoader.numVerts,
      LegacyJSONLoader.mLen, LegacyJSONLoader.uvLen, LegacyJSONLoader.fnLen,
      LegacyJSONLoader.vnLen, LegacyJSONLoader.fcLen, LegacyJSONLoader.vcLen,
      LegacyJSONLoader.trackGroup, LegacyJSONLoader.addTriangle, LegacyJSONLoader.getVertex,
      LegacyJSONLoader.finishGroups, LegacyJSONLoader.initDecodeState, List.replicate])
    (by norm_num +decide [LegacyJSONLoader.triangleTotal, LegacyJSONLoader.recordTypes,
      LegacyJSONLoader.sumTris, LegacyJSONLoader.entryCount, LegacyJSONLoader.numVerts,
      LegacyJSONLoader.mLen, LegacyJSONLoader.uvLen, LegacyJSONLoader.fnLen,
      LegacyJSONLoader.vnLen, LegacyJSONLoader.fcLen, LegacyJSONLoader.vcLen])

set_option maxHeartbeats 1000000 in
/-- Witness for the amended claim C4: a stream of two triangles with a
material transition yields the contiguous groups [0,3) and [3,6) whose counts
sum to 6 = 3 × 2 triangles. -/
theorem claim_C4_witness :
    LegacyJSONLoader.contigFrom 0
      ((⟨List.replicate 18 (some 0), [], [], [⟨0, 3, 0⟩, ⟨3, 3, 1⟩], 1, 3, 3⟩ :
        LegacyJSONLoader.DecodeState)).groups ∧
    LegacyJSONLoader.sumCounts
      ((⟨List.replicate 18 (some 0), [], [], [⟨0, 3, 0⟩, ⟨3, 3, 1⟩], 1, 3, 3⟩ :
        LegacyJSONLoader.DecodeState)).groups = 3 * 2 :=
  claim_C4 ⟨some (List.replicate 9 0), some [0, 0, 1, 2, 2, 0, 1, 2, 1], none, none, none⟩
    (List.replicate 9 0) [0, 0, 1, 2, 2, 0, 1, 2, 1] rfl rfl
    ⟨List.replicate 18 (some 0), [], [], [⟨0, 3, 0⟩, ⟨3, 3, 1⟩], 1, 3, 3⟩ 2
    (by norm_num +decide [LegacyJSONLoader.parse, LegacyJSONLoader.parseLoop,
      LegacyJSONLoader.processFace, LegacyJSONLoader.entryCount, LegacyJSONLoader.numVerts,
      LegacyJSONLoader.mLen, LegacyJSONLoader.uvLen, LegacyJSONLoader.fnLen,
      LegacyJSONLoader.vnLen, LegacyJSONLoader.fcLen, LegacyJSONLoader.vcLen,
      LegacyJSONLoader.trackGroup, LegacyJSONLoader.addTriangle, LegacyJSONLoader.getVertex,
      LegacyJSONLoader.finishGroups, LegacyJSONLoader.initDecodeState, List.replicate])
    (by norm_num +decide [LegacyJSONLoader.triangleTotal, LegacyJSONLoader.recordTypes,
      LegacyJSONLoader.sumTris, LegacyJSONLoader.entryCount, LegacyJSONLoader.numVerts,
      LegacyJSONLoader.mLen, LegacyJSONLoader.uvLen, LegacyJSONLoader.fnLen,
      LegacyJSONLoader.vnLen, LegacyJSONLoader.fcLen, LegacyJSONLoader.vcLen])

set_option maxHeartbeats 1000000 in
/-- Counterexample to claim C4 as stated: a well-formed single-triangle
stream decodes to one group whose count is 3 (vertex units) while the total
triangle count is 1, so the summed group counts do not equal the triangle
count. -/
theorem claim_C4_counterexample :
    (LegacyJSONLoader.parse
        ⟨some (List.replicate 9 0), some [0, 0, 1, 2], none, none, none⟩).1 =
      some ⟨List.replicate 9 (some 0), [], [], [⟨0, 3, 0⟩], 0, 0, 3⟩ ∧
    LegacyJSONLoader.triangleTotal [0, 0, 1, 2] = some 1 ∧
    LegacyJSONLoader.sumCounts [⟨0, 3, 0⟩] = 3 ∧ (3 : ℕ) ≠ 1 := by
  refine ⟨?_, ?_, ?_, by norm_num⟩
  · norm_num +decide [LegacyJSONLoader.parse, LegacyJSONLoader.parseLoop,
      LegacyJSONLoader.processFace, LegacyJSONLoader.entryCount, LegacyJSONLoader.numVerts,
      LegacyJSONLoader.mLen, LegacyJSONLoader.uvLen, LegacyJSONLoader.fnLen,
      LegacyJSONLoader.vnLen, LegacyJSONLoader.fcLen, LegacyJSONLoader.vcLen,
      LegacyJSONLoader.trackGroup, LegacyJSONLoader.addTriangle, LegacyJSONLoader.getVertex,
      LegacyJSONLoader.finishGroups, LegacyJSONLoader.initDecodeState, List.replicate]
  · norm_num +decide [LegacyJSONLoader.triangleTotal, LegacyJSONLoader.recordTypes,
      LegacyJSONLoader.sumTris, LegacyJSONLoader.entryCount, LegacyJSONLoader.numVerts,
      LegacyJSONLoader.mLen, LegacyJSONLoader.uvLen, LegacyJSONLoader.fnLen,
      LegacyJSONLoader.vnLen, LegacyJSONLoader.fcLen, LegacyJSONLoader.vcLen]
  · norm_num [LegacyJSONLoader.sumCounts]

/-- Witness for claim C8: two states that differ in every mutable field but
share the light constants produce the same effect bundle. -/
theorem claim_C8_witness :
    LoadingScene.effectParams
      (LoadingScene.updateVisualEffects
        ⟨0, 0, (0, 0), [⟨⟨1, 0, 1, false⟩, 0, 0⟩], [], 0, 0, 0, (0, 0, 0), 0, 0⟩ 0 0 0) =
    LoadingScene.effectParams
      (LoadingScene.updateVisualEffects
        ⟨5, 9, (1, 2), [⟨⟨1, 0, 1, false⟩, 7, 3⟩], [(1, 1, 1)], 4, 4, 4, (1, 1, 1), 8, 2⟩ 0 0 0) :=
  claim_C8 0 0 0
    ⟨0, 0, (0, 0), [⟨⟨1, 0, 1, false⟩, 0, 0⟩], [], 0, 0, 0, (0, 0, 0), 0, 0⟩
    ⟨5, 9, (1, 2), [⟨⟨1, 0, 1, false⟩, 7, 3⟩], [(1, 1, 1)], 4, 4, 4, (1, 1, 1), 8, 2⟩
    rfl

/-- Claim C9 (amended): on a structurally invalid payload (missing `vertices`
or `faces`) `parse` returns an empty material list — not a default material;
on a valid payload the number of resolved materials is max(1, number of
material descriptors): every descriptor is resolved regardless of which
material indices the groups reference, and a single default neutral material
is supplied only when no descriptor is present. -/
theorem claim_C9 (json : LegacyJSONLoader.JSONInput) :
    ((json.vertices.isNone ∨ json.faces.isNone) → (LegacyJSONLoader.parse json).2 = []) ∧
    (∀ (vs : List ℚ) (fs : List ℕ), json.vertices = some vs → json.faces = some fs →
      (LegacyJSONLoader.parse json).2.length = max 1 (json.materials.getD []).length ∧
      1 ≤ (LegacyJSONLoader.parse json).2.length) := by
  constructor
  · intro h
    have hn : json.vertices = none ∨ json.faces = none := by
      rcases h with h | h
      · exact Or.inl (Option.isNone_iff_eq_none.mp h)
      · exact Or.inr (Option.isNone_iff_eq_none.mp h)
    rw [LegacyJSONLoader.parse_invalid hn]
  · intro vs fs hv hf
    rw [LegacyJSONLoader.parse_mats hv hf]
    split_ifs with hm
    · rw [List.length_map] at hm
      constructor
      · simp [hm]
      · simp
    · rw [List.length_map] at hm ⊢
      constructor
      · omega
      · omega

/-- Witness for claim C9 at two concrete payloads: an invalid one (no
materials at all) and a valid descriptor-free one (one default material). -/
theorem claim_C9_witness :
    (LegacyJSONLoader.parse ⟨none, some [], none, none, none⟩).2 = [] ∧
    (LegacyJSONLoader.parse ⟨some [], some [], none, none, none⟩).2.length = max 1 0 ∧
    1 ≤ (LegacyJSONLoader.parse ⟨some [], some [], none, none, none⟩).2.length :=
  ⟨(claim_C9 ⟨none, some [], none, none, none⟩).1 (Or.inl rfl),
   ((claim_C9 ⟨some [], some [], none, none, none⟩).2 [] [] rfl rfl).1,
   ((claim_C9 ⟨some [], some [], none, none, none⟩).2 [] [] rfl rfl).2⟩

set_option maxHeartbeats 1000000 in
/-- Counterexample to claim C9 as stated: on the structurally-invalid payload
`parse` returns zero materials (not at least one), and on a valid payload
with two descriptors but only one distinct group material index it returns
two materials (not one), so the resolved-material count neither is always
positive nor equals the distinct referenced indices. -/
theorem claim_C9_counterexample :
    (LegacyJSONLoader.parse ⟨none, none, none, none, none⟩).2.length = 0 ∧
    (LegacyJSONLoader.parse
        ⟨some (List.replicate 9 0), some [0, 0, 1, 2], none, none,
         some [⟨none, none⟩, ⟨none, none⟩]⟩).1 =
      some ⟨List.replicate 9 (some 0), [], [], [⟨0, 3, 0⟩], 0, 0, 3⟩ ∧
    LegacyJSONLoader.distinctMatIndices [⟨0, 3, 0⟩] = 1 ∧
    (LegacyJSONLoader.parse
        ⟨some (List.replicate 9 0), some [0, 0, 1, 2], none, none,
         some [⟨none, none⟩, ⟨none, none⟩]⟩).2.length = 2 ∧
    (2 : ℕ) ≠ 1 ∧ ¬(1 : ℕ) ≤ 0 := by
  refine ⟨?_, ?_, by decide, ?_, by norm_num, by norm_num⟩
  · rw [LegacyJSONLoader.parse_invalid (Or.inl rfl)]
    rfl
  · norm_num +decide [LegacyJSONLoader.parse, LegacyJSONLoader.parseLoop,
      LegacyJSONLoader.processFace, LegacyJSONLoader.entryCount, LegacyJSONLoader.numVerts,
      LegacyJSONLoader.mLen, LegacyJSONLoader.uvLen, LegacyJSONLoader.fnLen,
      LegacyJSONLoader.vnLen, LegacyJSONLoader.fcLen, LegacyJSONLoader.vcLen,
      LegacyJSONLoader.trackGroup, LegacyJSONLoader.addTriangle, LegacyJSONLoader.getVertex,
      LegacyJSONLoader.finishGroups, LegacyJSONLoader.initDecodeState, List.replicate]
  · rw [LegacyJSONLoader.parse_mats rfl rfl]
    decide

namespace LegacyJSONLoader

/-! ### Stripping the skip-only flags (16, 64, 128) -/

set_option maxRecDepth 10000 in
set_option maxHeartbeats 1000000 in
/-- For a flag byte, clearing bits 16, 64 and 128 leaves the quad, material,
UV and vertex-normal flags untouched and clears the three skip-only flags. -/
lemma stripType_spec : ∀ t < 256,
    (stripType t &&& 1 = t &&& 1) ∧ (stripType t &&& 2 = t &&& 2) ∧
    (stripType t &&& 8 = t &&& 8) ∧ (stripType t &&& 32 = t &&& 32) ∧
    (stripType t &&& 16 = 0) ∧ (stripType t &&& 64 = 0) ∧ (stripType t &&& 128 = 0) := by
  decide

lemma strip_lens {t : ℕ} (ht : t < 256) :
    numVerts (stripType t) = numVerts t ∧ mLen (stripType t) = mLen t ∧
    uvLen (stripType t) = uvLen t ∧ vnLen (stripType t) = vnLen t ∧
    fnLen (stripType t) = 0 ∧ fcLen (stripType t) = 0 ∧ vcLen (stripType t) = 0 := by
  obtain ⟨a1, a2, a8, a32, a16, a64, a128⟩ := stripType_spec t ht
  have hnv : numVerts (stripType t) = numVerts t := by rw [numVerts, numVerts, a1]
  refine ⟨hnv, ?_, ?_, ?_, ?_, ?_, ?_⟩
  · rw [mLen, mLen, a2]
  · rw [uvLen, uvLen, a8, hnv]
  · rw [vnLen, vnLen, a32, hnv]
  · rw [fnLen, a16]; simp
  · rw [fcLen, a64]; simp
  · rw [vcLen, a128, hnv]; simp

lemma entryCount_strip {t : ℕ} (ht : t < 256) :
    entryCount (stripType t) = numVerts t + mLen t + uvLen t + vnLen t := by
  obtain ⟨hnv, hml, hul, hvl, hfl, hcl, hvc⟩ := strip_lens ht
  rw [entryCount, hnv, hml, hul, hvl, hfl, hcl, hvc]
  omega

lemma keptEntries_length {t : ℕ} {chunk : List ℕ} (hch : chunk.length = entryCount t) :
    (keptEntries t chunk).length = numVerts t + mLen t + uvLen t + vnLen t := by
  have hec : entryCount t =
      numVerts t + mLen t + uvLen t + fnLen t + vnLen t + fcLen t + vcLen t := rfl
  simp only [keptEntries, List.length_append, List.length_take, List.length_drop]
  omega

lemma faceCore_strip {t : ℕ} (ht : t < 256) (pools : Pools) (v mm uu nn : List ℕ)
    (st : DecodeState) :
    faceCore pools (stripType t) v mm uu nn st = faceCore pools t v mm uu nn st := by
  obtain ⟨a1, a2, a8, a32, _, _, _⟩ := stripType_spec t ht
  simp only [faceCore, a1, a2, a8, a32]

/-- Evaluation of `processFace` on a record chunk split into its entry runs:
the face-normal run `ff` and the color runs in `cc` are consumed but have no
effect on the result. -/
lemma processFace_parts (pools : Pools) (type : ℕ) (st : DecodeState)
    (v mm uu ff nn cc : List ℕ)
    (hv : v.length = numVerts type) (hm : mm.length = mLen type)
    (hu : uu.length = uvLen type) (hf : ff.length = fnLen type)
    (hn : nn.length = vnLen type) :
    processFace pools type (v ++ (mm ++ (uu ++ (ff ++ (nn ++ cc))))) st =
      faceCore pools type v mm uu nn st := by
  have e1 : (v ++ (mm ++ (uu ++ (ff ++ (nn ++ cc))))).take (numVerts type) = v :=
    List.take_left' hv
  have e2 : (v ++ (mm ++ (uu ++ (ff ++ (nn ++ cc))))).drop (numVerts type) =
      mm ++ (uu ++ (ff ++ (nn ++ cc))) := List.drop_left' hv
  have e3 : (v ++ (mm ++ (uu ++ (ff ++ (nn ++ cc))))).drop (numVerts type + mLen type) =
      uu ++ (ff ++ (nn ++ cc)) := by
    rw [show v ++ (mm ++ (uu ++ (ff ++ (nn ++ cc)))) =
        (v ++ mm) ++ (uu ++ (ff ++ (nn ++ cc))) from by simp]
    exact List.drop_left' (by simp [hv, hm])
  have e4 : (v ++ (mm ++ (uu ++ (ff ++ (nn ++ cc))))).drop
      (numVerts type + mLen type + uvLen type + fnLen type) = nn ++ cc := by
    rw [show v ++ (mm ++ (uu ++ (ff ++ (nn ++ cc)))) =
        ((v ++ mm) ++ uu ++ ff) ++ (nn ++ cc) from by simp]
    exact List.drop_left' (by simp [hv, hm, hu, hf]; omega)
  by_cases h2 : type &&& 2 ≠ 0
  · obtain ⟨x, hx⟩ := List.length_eq_one.mp
      (show mm.length = 1 from by rw [hm, mLen, if_pos h2])
    subst hx
    simp only [processFace, faceCore, e1, e2, e3, e4, List.take_left' hu, List.take_left' hn]
    simp
  · simp only [processFace, faceCore, e1, e2, e3, e4, List.take_left' hu, List.take_left' hn]
    simp [h2]

/-- Core of claim C10: on a well-formed record, stripping the three skip-only
flags and their entries does not change the decode step. -/
lemma processFace_strip (pools : Pools) (t : ℕ) (chunk : List ℕ) (st : DecodeState)
    (ht : t < 256) (hch : chunk.length = entryCount t) :
    processFace pools (stripType t) (keptEntries t chunk) st = processFace pools t chunk st := by
  obtain ⟨hnv, hml, hul, hvl, hfl, hcl, hvc⟩ := strip_lens ht
  have hec : entryCount t =
      numVerts t + mLen t + uvLen t + fnLen t + vnLen t + fcLen t + vcLen t := rfl
  have hv : (chunk.take (numVerts t)).length = numVerts t := by
    rw [List.length_take]; omega
  have hm : ((chunk.drop (numVerts t)).take (mLen t)).length = mLen t := by
    rw [List.length_take, List.length_drop]; omega
  have hu : ((chunk.drop (numVerts t + mLen t)).take (uvLen t)).length = uvLen t := by
    rw [List.length_take, List.length_drop]; omega
  have hf : ((chunk.drop (numVerts t + mLen t + uvLen t)).take (fnLen t)).length = fnLen t := by
    rw [List.length_take, List.length_drop]; omega
  have hn : ((chunk.drop (numVerts t + mLen t + uvLen t + fnLen t)).take (vnLen t)).length =
      vnLen t := by
    rw [List.length_take, List.length_drop]; omega
  have hsplit : chunk =
      chunk.take (numVerts t) ++
      ((chunk.drop (numVerts t)).take (mLen t) ++
      ((chunk.drop (numVerts t + mLen t)).take (uvLen t) ++
      ((chunk.drop (numVerts t + mLen t + uvLen t)).take (fnLen t) ++
      ((chunk.drop (numVerts t + mLen t + uvLen t + fnLen t)).take (vnLen t) ++
        chunk.drop (numVerts t + mLen t + uvLen t + fnLen t + vnLen t))))) := by
    conv_lhs => rw [← List.take_append_drop (numVerts t) chunk,
      ← List.drop_take_append_drop chunk (numVerts t) (mLen t),
      ← List.drop_take_append_drop chunk (numVerts t + mLen t) (uvLen t),
      ← List.drop_take_append_drop chunk (numVerts t + mLen t + uvLen t) (fnLen t),
      ← List.drop_take_append_drop chunk (numVerts t + mLen t + uvLen t + fnLen t) (vnLen t)]
  have hkept : keptEntries t chunk =
      chunk.take (numVerts t) ++
      ((chunk.drop (numVerts t)).take (mLen t) ++
      ((chunk.drop (numVerts t + mLen t)).take (uvLen t) ++
      (([] : List ℕ) ++
      ((chunk.drop (numVerts t + mLen t + uvLen t + fnLen t)).take (vnLen t) ++
        ([] : List ℕ))))) := by
    simp [keptEntries]
  have hR : processFace pools t chunk st =
      faceCore pools t (chunk.take (numVerts t)) ((chunk.drop (numVerts t)).take (mLen t))
        ((chunk.drop (numVerts t + mLen t)).take (uvLen t))
        ((chunk.drop (numVerts t + mLen t + uvLen t + fnLen t)).take (vnLen t)) st := by
    conv_lhs => rw [hsplit]
    exact processFace_parts pools t st _ _ _ _ _ _ hv hm hu hf hn
  have hL : processFace pools (stripType t) (keptEntries t chunk) st =
      faceCore pools (stripType t) (chunk.take (numVerts t))
        ((chunk.drop (numVerts t)).take (mLen t))
        ((chunk.drop (numVerts t + mLen t)).take (uvLen t))
        ((chunk.drop (numVerts t + mLen t + uvLen t + fnLen t)).take (vnLen t)) st := by
    rw [hkept]
    exact processFace_parts pools (stripType t) st _ _ _ _ _ _
      (hv.trans hnv.symm) (hm.trans hml.symm) (hu.trans hul.symm)
      (by simp [hfl]) (hn.trans hvl.symm)
  rw [hL, hR, faceCore_strip ht]

/-- Lifting of `processFace_strip` to whole streams: stripping every record
yields a stream on which the cursor machine computes the same decode state. -/
lemma parseLoop_strip (pools : Pools) : ∀ (fs : List ℕ) (ts : List ℕ),
    recordTypes fs = some ts → (∀ t ∈ ts, t < 256) →
    ∃ fs', stripStream fs = some fs' ∧
      ∀ st : DecodeState, parseLoop pools fs' st = parseLoop pools fs st := by
  intro fs
  induction fs using recordTypes.induct with
  | case1 =>
    intro ts _ _
    exact ⟨[], by rw [stripStream], fun st => rfl⟩
  | case2 t rest h ih =>
    intro ts hrt hlt
    rw [recordTypes, if_pos h] at hrt
    cases hrec : recordTypes (rest.drop (entryCount t)) with
    | none => rw [hrec] at hrt; cases hrt
    | some ts0 =>
      rw [hrec] at hrt
      simp at hrt
      subst hrt
      have hlt_t : t < 256 := hlt t (List.mem_cons_self t ts0)
      obtain ⟨tail', hstrip, heq⟩ :=
        ih ts0 hrec (fun x hx => hlt x (List.mem_cons_of_mem t hx))
      have hch : (rest.take (entryCount t)).length = entryCount t := by
        rw [List.length_take]; omega
      have hkl : (keptEntries t (rest.take (entryCount t))).length = entryCount (stripType t) := by
        rw [keptEntries_length hch, entryCount_strip hlt_t]
      refine ⟨stripType t :: (keptEntries t (rest.take (entryCount t)) ++ tail'), ?_, ?_⟩
      · rw [stripStream, if_pos h, hstrip]
        rfl
      · intro st
        conv_rhs => rw [parseLoop]
        rw [if_pos h]
        conv_lhs => rw [parseLoop]
        rw [if_pos (show entryCount (stripType t) ≤
          (keptEntries t (rest.take (entryCount t)) ++ tail').length from by
            rw [List.length_append, hkl]; omega)]
        rw [List.take_left' hkl, List.drop_left' hkl]
        rw [processFace_strip pools t _ st hlt_t hch]
        exact heq (processFace pools t (rest.take (entryCount t)) st)
  | case3 t rest h =>
    intro ts hrt _
    rw [recordTypes, if_neg h] at hrt
    cases hrt

end LegacyJSONLoader

/-- Claim C10: the stream entries consumed under the face-normal flag
(bit 16), face-color flag (bit 64) and face-vertex-color flag (bit 128)
advance the cursor by exactly the dictated number of entries but have no
effect on the decoded output: for every well-formed face stream (with flag
bytes in byte range), clearing those flags and removing the corresponding
entries yields a stream that decodes to the identical state — same
positions, normals, UVs and groups. -/
theorem claim_C10 (pools : LegacyJSONLoader.Pools) (fs ts : List ℕ)
    (hrt : LegacyJSONLoader.recordTypes fs = some ts) (hlt : ∀ t ∈ ts, t < 256)
    (st : LegacyJSONLoader.DecodeState) :
    ∃ fs', LegacyJSONLoader.stripStream fs = some fs' ∧
      LegacyJSONLoader.parseLoop pools fs' st = LegacyJSONLoader.parseLoop pools fs st := by
  obtain ⟨fs', hstrip, heq⟩ := LegacyJSONLoader.parseLoop_strip pools fs ts hrt hlt
  exact ⟨fs', hstrip, heq st⟩

/-- Witness for claim C10: a triangle record with face-normal, face-color and
vertex-color flags set (byte 208 = 16+64+128) decodes identically after the
flags are cleared and the four extra entries removed. -/
theorem claim_C10_witness :
    ∃ fs', LegacyJSONLoader.stripStream [208, 0, 1, 2, 99, 77, 5, 6, 7] = some fs' ∧
      LegacyJSONLoader.parseLoop ⟨[1, 2, 3, 4, 5, 6, 7, 8, 9], [], []⟩ fs'
          LegacyJSONLoader.initDecodeState =
        LegacyJSONLoader.parseLoop ⟨[1, 2, 3, 4, 5, 6, 7, 8, 9], [], []⟩
          [208, 0, 1, 2, 99, 77, 5, 6, 7] LegacyJSONLoader.initDecodeState :=
  claim_C10 ⟨[1, 2, 3, 4, 5, 6, 7, 8, 9], [], []⟩ [208, 0, 1, 2, 99, 77, 5, 6, 7] [208]
    (by norm_num +decide [LegacyJSONLoader.recordTypes, LegacyJSONLoader.entryCount,
      LegacyJSONLoader.numVerts, LegacyJSONLoader.mLen, LegacyJSONLoader.uvLen,
      LegacyJSONLoader.fnLen, LegacyJSONLoader.vnLen, LegacyJSONLoader.fcLen,
      LegacyJSONLoader.vcLen])
    (by decide) LegacyJSONLoader.initDecodeState
